import Mathlib

/-
  Verification development for the portfolio repository.

  The file embeds, in Lean, the logic core of the repository:
  * the SimpleHtmlRenderer parser (src/components/SafeHtmlRenderer.tsx),
  * the CMS content fetchers and resolvers (src/api/home.ts, src/api/about.ts,
    src/api/blog.ts, src/resources/content.tsx),
  * the image URL selection utilities (src/utils/image.ts),
  * the i18n constants (src/lib/i18n.ts) and the about-page skill mapping.

  External collaborators (the HTTP fetch, the remark markdown-to-HTML
  pipeline) are modelled as oracle function parameters, so every embedded
  operation is a total computable function.
-/

namespace Portfolio

/-! ## Presentational node trees

React elements produced by the renderer are modelled as trees whose tag
is a plain string (as in JSX, where the element type is a string) and
whose children are nodes.  React `key` props only disambiguate siblings
for reconciliation and carry no structure, so they are not modelled;
React also flattens nested arrays of children, so child sequences are
kept as flat lists. -/

inductive Node where
  | text (s : String)
  | elem (tag : String) (children : List Node)
deriving Repr

mutual

/-- Flattened text of a node: concatenation of all text leaves. -/
def Node.flatText : Node → String
  | .text s => s
  | .elem _ cs => Node.flatTextList cs

/-- Flattened text of a node list. -/
def Node.flatTextList : List Node → String
  | [] => ""
  | n :: ns => Node.flatText n ++ Node.flatTextList ns

end

/-- The fixed tag vocabulary the renderer may emit as structural nodes:
the inline formatting tags, the list tags, and the `span` wrappers the
parser puts around every text segment. -/
def rendererVocab : List String :=
  ["strong", "em", "code", "u", "ul", "ol", "li", "span"]

mutual

/-- Every structural node in the tree carries a tag from `rendererVocab`. -/
def Node.vocabOnly : Node → Bool
  | .text _ => true
  | .elem t cs => rendererVocab.contains t && Node.vocabOnlyList cs

/-- `Node.vocabOnly` on every node of a list. -/
def Node.vocabOnlyList : List Node → Bool
  | [] => true
  | n :: ns => Node.vocabOnly n && Node.vocabOnlyList ns

end

/-! ## SimpleHtmlRenderer — embedding of `parseSimpleHtml`

Faithful embedding of the `SimpleHtmlRenderer` component of
src/components/SafeHtmlRenderer.tsx (the variant with list handling).
Strings are processed as `List Char`; regular-expression operations of
the source are implemented as the equivalent explicit scans. -/

/-- `htmlString.replace(/<\/?p>/g, "")`: a single left-to-right pass that
deletes every occurrence of `<p>` and `</p>`. -/
def removePTags : List Char → List Char
  | '<' :: 'p' :: '>' :: rest => removePTags rest
  | '<' :: '/' :: 'p' :: '>' :: rest => removePTags rest
  | c :: rest => c :: removePTags rest
  | [] => []

/-- ASCII whitespace trimmed by `String.prototype.trim` (the JS method
also trims some further Unicode space characters, which do not occur in
any input considered here). -/
def isJsSpace (c : Char) : Bool :=
  c = ' ' || c = '\t' || c = '\n' || c = '\r' || c = '\x0b' || c = '\x0c'

/-- `s.trim()` on character lists. -/
def trimChars (l : List Char) : List Char :=
  ((l.dropWhile isJsSpace).reverse.dropWhile isJsSpace).reverse

/-- `content.split(/(<\/?(?:strong|em|code|u)>)/g)`: split at the eight
inline delimiters, keeping the delimiters (captured group) as parts.
`acc` holds the current plain-text run, reversed. -/
def splitFmtAux : List Char → List Char → List (List Char)
  | '<' :: 's' :: 't' :: 'r' :: 'o' :: 'n' :: 'g' :: '>' :: rest, acc =>
      acc.reverse :: "<strong>".data :: splitFmtAux rest []
  | '<' :: '/' :: 's' :: 't' :: 'r' :: 'o' :: 'n' :: 'g' :: '>' :: rest, acc =>
      acc.reverse :: "</strong>".data :: splitFmtAux rest []
  | '<' :: 'e' :: 'm' :: '>' :: rest, acc =>
      acc.reverse :: "<em>".data :: splitFmtAux rest []
  | '<' :: '/' :: 'e' :: 'm' :: '>' :: rest, acc =>
      acc.reverse :: "</em>".data :: splitFmtAux rest []
  | '<' :: 'c' :: 'o' :: 'd' :: 'e' :: '>' :: rest, acc =>
      acc.reverse :: "<code>".data :: splitFmtAux rest []
  | '<' :: '/' :: 'c' :: 'o' :: 'd' :: 'e' :: '>' :: rest, acc =>
      acc.reverse :: "</code>".data :: splitFmtAux rest []
  | '<' :: 'u' :: '>' :: rest, acc =>
      acc.reverse :: "<u>".data :: splitFmtAux rest []
  | '<' :: '/' :: 'u' :: '>' :: rest, acc =>
      acc.reverse :: "</u>".data :: splitFmtAux rest []
  | c :: rest, acc => splitFmtAux rest (c :: acc)
  | [], acc => [acc.reverse]

/-- The split of a content block at the inline-tag delimiters. -/
def splitFmt (l : List Char) : List (List Char) := splitFmtAux l []

/-- `currentFormatting.filter((f) => f !== tag)`: the close-tag
transition on the stack of currently open formatting tags. -/
def removeFmt (tag : String) (fmt : List String) : List String :=
  fmt.filter (fun f => f ≠ tag)

/-- One step of the `switch (format)` statement: wrap `el` in the given
formatting tag (the switch has no default case, so an unknown format
string leaves the element unchanged). -/
def applyFormat (f : String) (el : Node) : Node :=
  if f = "strong" then .elem "strong" [el]
  else if f = "em" then .elem "em" [el]
  else if f = "code" then .elem "code" [el]
  else if f = "u" then .elem "u" [el]
  else el

/-- `for (const format of formats) { element = wrap(element) }`: the
open tags are iterated in stack order (first-opened first), each
wrapping the element built so far — so the first-opened tag ends up
innermost. -/
def wrapFormats (fmt : List String) (el : Node) : Node :=
  fmt.foldl (fun e f => applyFormat f e) el

/-- The loop body of `parseInlineContent`: walk the split parts keeping
the `currentFormatting` stack; a part equal to an open delimiter pushes,
a close delimiter filters, a non-empty part not starting with `<` is
emitted as a `span` wrapped by the open formats, and anything else
(empty parts, unrecognized parts starting with `<`) is skipped. -/
def inlineGo : List (List Char) → List String → List Node
  | [], _ => []
  | p :: ps, fmt =>
    if p = "<strong>".data then inlineGo ps (fmt ++ ["strong"])
    else if p = "</strong>".data then inlineGo ps (removeFmt "strong" fmt)
    else if p = "<em>".data then inlineGo ps (fmt ++ ["em"])
    else if p = "</em>".data then inlineGo ps (removeFmt "em" fmt)
    else if p = "<code>".data then inlineGo ps (fmt ++ ["code"])
    else if p = "</code>".data then inlineGo ps (removeFmt "code" fmt)
    else if p = "<u>".data then inlineGo ps (fmt ++ ["u"])
    else if p = "</u>".data then inlineGo ps (removeFmt "u" fmt)
    else
      match p with
      | [] => inlineGo ps fmt
      | c :: _ =>
        if c = '<' then inlineGo ps fmt
        else Node.elem "span" [wrapFormats fmt (.text (String.mk p))]
               :: inlineGo ps fmt

/-- `parseInlineContent(content)`: split at the inline delimiters and
run the formatting-stack loop (the `keyPrefix` argument of the source
only feeds React keys and is not modelled). -/
def parseInlineContent (l : List Char) : List Node :=
  inlineGo (splitFmt l) []

/-- Scan for the first `<ul>` or `<ol>`: returns the characters before
it, whether it was `<ol>`, and the characters after it. -/
def findListOpen : List Char → Option (List Char × Bool × List Char)
  | '<' :: 'u' :: 'l' :: '>' :: rest => some ([], false, rest)
  | '<' :: 'o' :: 'l' :: '>' :: rest => some ([], true, rest)
  | c :: rest => (findListOpen rest).map (fun x => (c :: x.1, x.2.1, x.2.2))
  | [] => none

/-- Scan for the first `</ul>` or `</ol>` (the close-tag group of the
regex is independent of the open tag): returns the characters before it
and the characters after it. -/
def findListClose : List Char → Option (List Char × List Char)
  | '<' :: '/' :: 'u' :: 'l' :: '>' :: rest => some ([], rest)
  | '<' :: '/' :: 'o' :: 'l' :: '>' :: rest => some ([], rest)
  | c :: rest => (findListClose rest).map (fun x => (c :: x.1, x.2))
  | [] => none

/-- One `exec` of `/<(ul|ol)>([\s\S]*?)<\/(ul|ol)>/g`: the match starts
at the first open tag and, because the content group is lazy, ends at
the earliest following close tag.  If the first open tag has no close
tag after it then no later open tag has one either, so the regex finds
no match at all — hence no backtracking beyond this needs modelling.
Returns `(before, isOl, content, rest)`. -/
def findListMatch (l : List Char) : Option (List Char × Bool × List Char × List Char) :=
  match findListOpen l with
  | none => none
  | some (before, isOl, afterOpen) =>
    match findListClose afterOpen with
    | none => none
    | some (content, rest) => some (before, isOl, content, rest)

/-- Scan for the first `<li>`: returns the characters after it. -/
def findLiOpen : List Char → Option (List Char)
  | '<' :: 'l' :: 'i' :: '>' :: rest => some rest
  | _ :: rest => findLiOpen rest
  | [] => none

/-- Scan for the first `</li>`: returns the characters before it and
after it. -/
def findLiClose : List Char → Option (List Char × List Char)
  | '<' :: '/' :: 'l' :: 'i' :: '>' :: rest => some ([], rest)
  | c :: rest => (findLiClose rest).map (fun x => (c :: x.1, x.2))
  | [] => none

/-- One match of `/<li>([\s\S]*?)<\/li>/g`: first `<li>`, then the
earliest following `</li>` (lazy group).  Returns the content between
the tags and the rest after the close tag. -/
def findLiMatch (l : List Char) : Option (List Char × List Char) :=
  match findLiOpen l with
  | none => none
  | some afterOpen => findLiClose afterOpen

/-- `item.replace(/<\/?li>/g, "")`: single pass deleting every `<li>`
and `</li>`. -/
def stripLiTags : List Char → List Char
  | '<' :: 'l' :: 'i' :: '>' :: rest => stripLiTags rest
  | '<' :: '/' :: 'l' :: 'i' :: '>' :: rest => stripLiTags rest
  | c :: rest => c :: stripLiTags rest
  | [] => []

/-- The `listContent.match(/<li>…/g).map(...)` loop: each matched item
(the full `<li>…</li>` string) has its li tags stripped, is trimmed and
inline-parsed into one `li` node.  The recursion consumes at least nine
characters per match, so `fuel := l.length` always suffices; fuel
exhaustion can only be reached on the empty rest, where the source loop
also stops. -/
def liLoop : Nat → List Char → List Node
  | 0, _ => []
  | fuel + 1, l =>
    match findLiMatch l with
    | none => []
    | some (mid, rest) =>
      Node.elem "li"
          (parseInlineContent
            (trimChars (stripLiTags ("<li>".data ++ mid ++ "</li>".data))))
        :: liLoop fuel rest

/-- The `while (match !== null)` loop of `handleLists` after the first
match: content strictly between list matches is inline-parsed when its
trim is non-empty, each list match becomes a `ul`/`ol` node of its `li`
items, and the remaining content after the last match is inline-parsed
when its trim is non-empty.  Fuel as in `liLoop` (each match consumes at
least nine characters). -/
def listsLoop : Nat → List Char → List Node
  | 0, _ => []
  | fuel + 1, l =>
    match findListMatch l with
    | none => if trimChars l = [] then [] else parseInlineContent l
    | some (before, isOl, content, rest) =>
      (if trimChars before = [] then [] else parseInlineContent before)
        ++ [Node.elem (if isOl then "ol" else "ul") (liLoop content.length content)]
        ++ listsLoop fuel rest

/-- `handleLists(html)`.  When no list matches at all, the source either
pushes `parseInlineContent(html)` (trim non-empty) or, via the final
`elements.length === 0` fallback, also pushes `parseInlineContent(html)`
(trim empty) — the two branches coincide, so the embedding returns
`parseInlineContent l` directly.  After a match the fallback is
unreachable. -/
def handleLists (l : List Char) : List Node :=
  match findListMatch l with
  | none => parseInlineContent l
  | some (before, isOl, content, rest) =>
    (if trimChars before = [] then [] else parseInlineContent before)
      ++ [Node.elem (if isOl then "ol" else "ul") (liLoop content.length content)]
      ++ listsLoop rest.length rest

/-- `parseSimpleHtml(htmlString)`: delete every `<p>`/`</p>`, trim, then
handle lists (which falls back to pure inline parsing). -/
def parseSimpleHtml (s : String) : List Node :=
  handleLists (trimChars (removePTags s.data))

example : parseSimpleHtml "<ul><li>x</li><li>y</li></ul>" =
    [.elem "ul" [.elem "li" [.elem "span" [.text "x"]],
                 .elem "li" [.elem "span" [.text "y"]]]] := rfl

/-! ## Process configuration and JS truthiness

`process.env` variables are `Option String` (`none` = unset).  JS `||`
and `if (!x)` are truthiness-based: the empty string is falsy. -/

structure Env where
  STRAPI_API_URL : Option String
  NEXT_PUBLIC_STRAPI_API_URL : Option String
  STRAPI_IMAGE_URL : Option String
  NEXT_PUBLIC_STRAPI_IMAGE_URL : Option String

/-- JS truthiness of a string-or-undefined value. -/
def truthyOpt : Option String → Bool
  | none => false
  | some s => s ≠ ""

/-- JS `a || b` on string-or-undefined values. -/
def jsOr (a b : Option String) : Option String :=
  if truthyOpt a then a else b

/-! ## Image utilities — embedding of src/utils/image.ts -/

/-- Strapi image format variant; only the fields the embedded functions
touch are carried (`url`, plus the dimensions for completeness). -/
structure StrapiImageFormat where
  url : String
  width : Nat
  height : Nat

/-- The optional `formats` record of a Strapi image. -/
structure ImageFormats where
  large : Option StrapiImageFormat
  medium : Option StrapiImageFormat
  small : Option StrapiImageFormat
  thumbnail : Option StrapiImageFormat

/-- Strapi image object; fields the embedded code reads (`id`,
`alternativeText`, `caption`, `formats`, `url`); the remaining metadata
fields of the source interface are never read by the embedded
functions. -/
structure StrapiImage where
  id : Nat
  alternativeText : Option String
  caption : Option String
  formats : Option ImageFormats
  url : String

/-- The requested size variant of `getBestImageUrl`. -/
inductive ImgSize where
  | thumbnail | small | medium | large
deriving Repr, DecidableEq

/-- `image.formats?.[size]` field access. -/
def ImageFormats.get : ImageFormats → ImgSize → Option StrapiImageFormat
  | f, .thumbnail => f.thumbnail
  | f, .small => f.small
  | f, .medium => f.medium
  | f, .large => f.large

/-- `getStrapiImageUrl(imagePath)`: prefer the image-specific base URL,
fall back to the API base URL, then to the development default. -/
def getStrapiImageUrl (env : Env) (imagePath : String) : String :=
  let imageUrl := jsOr env.STRAPI_IMAGE_URL env.NEXT_PUBLIC_STRAPI_IMAGE_URL
  if truthyOpt imageUrl then imageUrl.getD "" ++ imagePath
  else
    let apiUrl :=
      jsOr (jsOr env.STRAPI_API_URL env.NEXT_PUBLIC_STRAPI_API_URL)
        (some "http://localhost:1337")
    apiUrl.getD "" ++ imagePath

/-- `fallbackOrder = ["large", "medium", "small", "thumbnail"]`. -/
def fallbackOrder : List ImgSize := [.large, .medium, .small, .thumbnail]

/-- The `for (const size of fallbackOrder)` loop: first available format
in preference order. -/
def firstAvailableFormat (image : StrapiImage) : List ImgSize → Option StrapiImageFormat
  | [] => none
  | s :: rest =>
    match image.formats.bind (fun f => f.get s) with
    | some fm => some fm
    | none => firstAvailableFormat image rest

/-- `getBestImageUrl(image, preferredSize)`: requested variant if
present, otherwise the fallback loop, otherwise the original URL. -/
def getBestImageUrl (env : Env) (image : StrapiImage) (preferredSize : ImgSize) : String :=
  match image.formats.bind (fun f => f.get preferredSize) with
  | some preferredFormat => getStrapiImageUrl env preferredFormat.url
  | none =>
    match firstAvailableFormat image fallbackOrder with
    | some fm => getStrapiImageUrl env fm.url
    | none => getStrapiImageUrl env image.url

/-! ## i18n constants — embedding of src/lib/i18n.ts -/

/-- Available locales of the application. -/
def locales : List String := ["es", "en"]

/-- Default locale of the application. -/
def defaultLocale : String := "es"

/-! ## CMS requests — embedding of the fetch calls of src/api/home.ts,
src/api/about.ts and src/api/blog.ts -/

/-- An outbound HTTP request as the fetch calls assemble it (the blog
fetch passes no `method`, which defaults to GET; its `next.revalidate`
cache option is framework metadata, not part of the request). -/
structure Request where
  url : String
  method : String
  headers : List (String × String)

/-- The hard-coded `const locale = "en"` of `getHomeContent`. -/
def homeLocale : String := "en"

/-- The hard-coded `const locale = "en"` of `fetchBlogPostsFromStrapi`. -/
def blogLocale : String := "en"

/-- The request `getHomeContent` sends for a given resolved base URL. -/
def homeRequest (apiUrl : String) : Request :=
  { url := apiUrl ++ ("/api/home?populate=all&locale=" ++ homeLocale)
    method := "GET"
    headers := [("Content-Type", "application/json")] }

/-- The request `getAboutContent` sends for a given resolved base URL. -/
def aboutRequest (apiUrl : String) : Request :=
  { url := apiUrl ++ "/api/about?populate=*"
    method := "GET"
    headers := [("Content-Type", "application/json")] }

/-- The request `fetchBlogPostsFromStrapi` sends for a given resolved
base URL. -/
def blogRequest (apiUrl : String) : Request :=
  { url := apiUrl ++ ("/api/posts?populate=*&locale=" ++ blogLocale)
    method := "GET"
    headers := [("Content-Type", "application/json")] }

/-! ## Home content fetcher — embedding of src/api/home.ts

The TypeScript `StrapiHomeResponse` interface declares every field of
`data.data` as required, but `response.json()` performs no validation,
so at run time any field may be absent (`undefined`).  The embedding
gives `Option` types exactly to the fields the code itself treats as
possibly absent: the three newsletter fields (optional in the
`HomeContent` interface) and `carousel` (guarded with optional chaining
in content.tsx). -/

/-- The decoded `data.data` object of the home response. -/
structure StrapiHomeData where
  headline : String
  hasFeatured : Bool
  featured : String
  subLine : String
  hasCarousel : Bool
  carousel : Option (List StrapiImage)
  hasNewsletter : Option Bool
  newsletterTitle : Option String
  newsletterDescription : Option String

/-- The `HomeContent` interface (newsletter fields optional). -/
structure HomeContent where
  headline : String
  hasFeatured : Bool
  featured : String
  subLine : String
  hasCarousel : Bool
  carousel : Option (List StrapiImage)
  hasNewsletter : Option Bool
  newsletterTitle : Option String
  newsletterDescription : Option String

/-- What the outside world does with one fetch call: the promise
rejects (network error), or a response arrives with an `ok` flag, a
status code, and a body that either decodes to home data or fails to
parse as JSON (`none`). -/
inductive FetchOutcome where
  | networkError
  | response (ok : Bool) (status : Nat) (body : Option StrapiHomeData)

/-- The failure taxonomy of `getHomeContent`: every `throw` site. -/
inductive HomeError where
  | missingConfig
  | network
  | http (status : Nat)
  | decode
deriving Repr, DecidableEq

/-- `process.env.STRAPI_API_URL || process.env.NEXT_PUBLIC_STRAPI_API_URL`. -/
def resolveApiUrl (env : Env) : Option String :=
  jsOr env.STRAPI_API_URL env.NEXT_PUBLIC_STRAPI_API_URL

/-- `getHomeContent()`: throw on missing/empty base URL (`!apiUrl` is
truthiness, so the empty string also throws), perform the fetch, throw
on rejection, non-ok response or JSON failure, else destructure the
data object into a `HomeContent` (the catch block only logs and
re-throws, so errors propagate unchanged). -/
def getHomeContent (env : Env) (fetch : Request → FetchOutcome) :
    Except HomeError HomeContent :=
  match resolveApiUrl env with
  | none => .error .missingConfig
  | some apiUrl =>
    if apiUrl = "" then .error .missingConfig
    else
      match fetch (homeRequest apiUrl) with
      | .networkError => .error .network
      | .response ok status body =>
        if !ok then .error (.http status)
        else
          match body with
          | none => .error .decode
          | some d =>
            .ok { headline := d.headline
                  hasFeatured := d.hasFeatured
                  featured := d.featured
                  subLine := d.subLine
                  hasCarousel := d.hasCarousel
                  carousel := d.carousel
                  hasNewsletter := d.hasNewsletter
                  newsletterTitle := d.newsletterTitle
                  newsletterDescription := d.newsletterDescription }

/-- `getHomeContentSafe()`: catch everything, log, return `null`. -/
def getHomeContentSafe (env : Env) (fetch : Request → FetchOutcome) :
    Option HomeContent :=
  (getHomeContent env fetch).toOption

/-! ## Home page view-model — embedding of src/resources/content.tsx

React-element-valued fields are modelled with `Node` trees (component
names as tags, props dropped, interpolations flattened to text).
Fields the source can set to JS `undefined` are `Option`-typed; every
other field cannot hold `undefined`. -/

/-- The `person` record. -/
structure Person where
  firstName : String
  lastName : String
  name : String
  role : String
  avatar : String
  email : String
  location : String
  languages : List String

/-- The compiled-in `person` constant. -/
def person : Person :=
  { firstName := "Axel"
    lastName := "Rodriguez"
    name := "Axel Rodríguez"
    role := "Software Engineer"
    avatar := "/images/avatar.jpg"
    email := "alejandrom9712@gmail.com"
    location := "America/Guatemala"
    languages := ["English", "Spanish"] }

/-- One carousel image of the home view-model. -/
structure CarouselImageVM where
  id : String
  alt : String
  caption : String
  url : String

/-- `featured` section of the home view-model. -/
structure FeaturedVM where
  display : Bool
  title : Node
  href : String

/-- `carousel` section; `images` is `none` when the source stores JS
`undefined` there (optional chaining on an absent carousel array). -/
structure CarouselVM where
  display : Bool
  images : Option (List CarouselImageVM)

/-- `newsletter` section; `title`/`description` are `none` when the
source assigns an absent CMS field (JS `undefined`). -/
structure NewsletterVM where
  display : Bool
  title : Option Node
  description : Option Node

/-- The `Home` view-model shape. -/
structure Home where
  path : String
  image : String
  label : String
  title : String
  description : String
  loading : Bool
  headline : Node
  featured : FeaturedVM
  subline : Node
  carousel : CarouselVM
  newsletter : NewsletterVM

/-- The compiled-in `staticHome` fallback record. -/
def staticHome : Home :=
  { path := "/"
    image := "/images/og/home.jpg"
    label := "Home"
    title := person.name ++ "\x27s Portfolio"
    description := "Portfolio website showcasing my work as a " ++ person.role
    loading := true
    headline := .text ""
    featured := { display := false, title := .text "", href := "#work" }
    subline := .text ""
    carousel :=
      { display := false
        images := some [{ id := "", alt := "", caption := "", url := "" }] }
    newsletter :=
      { display := true
        title := some (.elem "fragment"
          [.text ("Subscribe to " ++ person.firstName ++ "\x27s Newsletter")])
        description := some (.elem "fragment"
          [.text "My weekly newsletter about creativity and engineering"]) } }

/-- The carousel image mapping of `getHomePageContent`
(`alternativeText || ""`, `caption || ""`, best image URL at `large`). -/
def toCarouselImageVM (env : Env) (image : StrapiImage) : CarouselImageVM :=
  { id := toString image.id
    alt := image.alternativeText.getD ""
    caption := image.caption.getD ""
    url := getBestImageUrl env image .large }

/-- `getHomePageContent()`: resolve safely; on `null` return
`staticHome`; otherwise build the live view-model over the static one.
The remark markdown-to-HTML conversion is the oracle parameter
`markdownToHtml`; the rendered `<SimpleHtmlRenderer html={...}/>` is
its `div`-wrapped parse. -/
def getHomePageContent (env : Env) (fetch : Request → FetchOutcome)
    (markdownToHtml : String → String) : Home :=
  match getHomeContentSafe env fetch with
  | none => staticHome
  | some strapiContent =>
    let sublineHtml := markdownToHtml strapiContent.subLine
    { staticHome with
      headline := .elem "fragment" [.text strapiContent.headline]
      featured :=
        { display := strapiContent.hasFeatured
          title := .elem "Row"
            [.elem "strong" [.text strapiContent.featured],
             .elem "Line" [],
             .elem "Text" [.text "Featured work"]]
          href := staticHome.featured.href }
      subline := .elem "div" (parseSimpleHtml sublineHtml)
      loading := false
      carousel :=
        { display := strapiContent.hasCarousel
          images :=
            if strapiContent.hasCarousel then
              strapiContent.carousel.map (fun imgs =>
                imgs.map (toCarouselImageVM env))
            else some [] }
      newsletter :=
        { display := strapiContent.hasNewsletter.getD false
          title := strapiContent.newsletterTitle.map .text
          description := strapiContent.newsletterDescription.map .text } }

/-- Every field of the view-model that can hold JS `undefined` is
defined; all other fields are non-optional by construction. -/
def Home.allDefined (h : Home) : Bool :=
  h.newsletter.title.isSome && h.newsletter.description.isSome
    && h.carousel.images.isSome

/-! ## About page skill mapping — embedding of the `ProgressBar value`
ternary of the about page component -/

/-- `skill.level === "beginner" ? 25 : … : 100`. -/
def skillProgressValue (level : String) : Nat :=
  if level = "beginner" then 25
  else if level = "intermediate" then 50
  else if level = "advanced" then 75
  else 100

/-! ## Lemmas: the parser only emits vocabulary tags -/

lemma vocabOnly_applyFormat (f : String) (el : Node) (h : el.vocabOnly = true) :
    (applyFormat f el).vocabOnly = true := by
  unfold applyFormat
  split_ifs <;>
    simp_all [Node.vocabOnly, Node.vocabOnlyList, rendererVocab, List.contains]

lemma vocabOnly_wrapFormats :
    ∀ (fmt : List String) (el : Node), el.vocabOnly = true →
      (wrapFormats fmt el).vocabOnly = true := by
  intro fmt
  induction fmt with
  | nil => intro el h; simpa [wrapFormats] using h
  | cons f fs ih =>
    intro el h
    have : wrapFormats (f :: fs) el = wrapFormats fs (applyFormat f el) := rfl
    rw [this]
    exact ih _ (vocabOnly_applyFormat f el h)

lemma vocabOnlyList_inlineGo :
    ∀ (ps : List (List Char)) (fmt : List String),
      Node.vocabOnlyList (inlineGo ps fmt) = true := by
  intro ps
  induction ps with
  | nil => intro fmt; rfl
  | cons p ps ih =>
    intro fmt
    simp only [inlineGo]
    split_ifs <;> try exact ih _
    cases p with
    | nil => exact ih _
    | cons c cs =>
      by_cases hc : c = '<'
      · simp only [hc, if_pos rfl]; exact ih _
      · simp only [if_neg hc, Node.vocabOnlyList, Node.vocabOnly]
        have hw : (wrapFormats fmt (Node.text (String.mk (c :: cs)))).vocabOnly = true :=
          vocabOnly_wrapFormats fmt _ rfl
        simp [hw, ih fmt, rendererVocab, List.contains]

lemma vocabOnlyList_parseInlineContent (l : List Char) :
    Node.vocabOnlyList (parseInlineContent l) = true :=
  vocabOnlyList_inlineGo _ _

lemma vocabOnlyList_append (a b : List Node) :
    Node.vocabOnlyList (a ++ b)
      = (Node.vocabOnlyList a && Node.vocabOnlyList b) := by
  induction a with
  | nil => simp [Node.vocabOnlyList]
  | cons n ns ih => simp [Node.vocabOnlyList, ih, Bool.and_assoc]

lemma vocabOnlyList_liLoop :
    ∀ (fuel : Nat) (l : List Char), Node.vocabOnlyList (liLoop fuel l) = true := by
  intro fuel
  induction fuel with
  | zero => intro l; rfl
  | succ n ih =>
    intro l
    simp only [liLoop]
    split
    · rfl
    · simp [Node.vocabOnlyList, Node.vocabOnly, rendererVocab, List.contains,
        vocabOnlyList_parseInlineContent, ih]

lemma vocabOnlyList_listsLoop :
    ∀ (fuel : Nat) (l : List Char), Node.vocabOnlyList (listsLoop fuel l) = true := by
  intro fuel
  induction fuel with
  | zero => intro l; rfl
  | succ n ih =>
    intro l
    simp only [listsLoop]
    split
    · split_ifs
      · rfl
      · exact vocabOnlyList_parseInlineContent _
    · rename_i before isOl content rest _
      simp only [vocabOnlyList_append, Bool.and_eq_true]
      refine ⟨⟨?_, ?_⟩, ih _⟩
      · split_ifs
        · rfl
        · exact vocabOnlyList_parseInlineContent _
      · simp [Node.vocabOnlyList, Node.vocabOnly, vocabOnlyList_liLoop,
          rendererVocab, List.contains]
        cases isOl <;> simp

lemma vocabOnlyList_handleLists (l : List Char) :
    Node.vocabOnlyList (handleLists l) = true := by
  simp only [handleLists]
  split
  · exact vocabOnlyList_parseInlineContent _
  · rename_i before isOl content rest _
    simp only [vocabOnlyList_append, Bool.and_eq_true]
    refine ⟨⟨?_, ?_⟩, vocabOnlyList_listsLoop _ _⟩
    · split_ifs
      · rfl
      · exact vocabOnlyList_parseInlineContent _
    · simp [Node.vocabOnlyList, Node.vocabOnly, vocabOnlyList_liLoop,
        rendererVocab, List.contains]
      cases isOl <;> simp

/-! ## Lemmas: the home resolver on failure -/

lemma getHomePageContent_of_error {env : Env} {fetch : Request → FetchOutcome}
    {md : String → String} {e : HomeError}
    (h : getHomeContent env fetch = .error e) :
    getHomePageContent env fetch md = staticHome := by
  simp [getHomePageContent, getHomeContentSafe, h, Except.toOption]

/-- Concrete environment with only `STRAPI_API_URL` configured. -/
def envLive : Env :=
  { STRAPI_API_URL := some "http://cms.example"
    NEXT_PUBLIC_STRAPI_API_URL := none
    STRAPI_IMAGE_URL := none
    NEXT_PUBLIC_STRAPI_IMAGE_URL := none }

/-- A decoded home response in which the CMS omitted the
`newsletterTitle` field but everything else is present. -/
def homeDataNoNewsletterTitle : StrapiHomeData :=
  { headline := "Hello"
    hasFeatured := true
    featured := "Featured"
    subLine := ""
    hasCarousel := false
    carousel := some []
    hasNewsletter := some true
    newsletterTitle := none
    newsletterDescription := some "Weekly notes" }

/-- A decoded home response with every field present. -/
def homeDataFull : StrapiHomeData :=
  { headline := "Hello"
    hasFeatured := true
    featured := "Featured"
    subLine := ""
    hasCarousel := true
    carousel := some []
    hasNewsletter := some true
    newsletterTitle := some "Newsletter"
    newsletterDescription := some "Weekly notes" }

/-- The `HomeContent` extracted from `homeDataFull`. -/
def homeContentFull : HomeContent :=
  { headline := "Hello"
    hasFeatured := true
    featured := "Featured"
    subLine := ""
    hasCarousel := true
    carousel := some []
    hasNewsletter := some true
    newsletterTitle := some "Newsletter"
    newsletterDescription := some "Weekly notes" }

/-- Oracle: the CMS answers 200 with `homeDataNoNewsletterTitle`. -/
def fetchOkNoNewsletterTitle : Request → FetchOutcome :=
  fun _ => .response true 200 (some homeDataNoNewsletterTitle)

/-- Oracle: the CMS answers 200 with `homeDataFull`. -/
def fetchOkFull : Request → FetchOutcome :=
  fun _ => .response true 200 (some homeDataFull)

/-- Oracle: the CMS answers HTTP 500. -/
def fetchHttp500 : Request → FetchOutcome :=
  fun _ => .response false 500 none

/-- A thumbnail-only format record and image, for the image-fallback
claims. -/
def thumbFormat : StrapiImageFormat :=
  { url := "/uploads/thumb.jpg", width := 245, height := 156 }

/-- An image whose `formats` contain only a thumbnail variant. -/
def imgThumbOnly : StrapiImage :=
  { id := 7
    alternativeText := none
    caption := none
    formats := some
      { large := none, medium := none, small := none, thumbnail := some thumbFormat }
    url := "/uploads/orig.jpg" }

/-! ## Claim theorems -/

/-- C1 (amended): the home resolver is a total function (it never raises),
and on any fetch failure it returns the static default, whose fields are
all defined; on a successful fetch the view-model fields are all defined
provided the response actually carries the optional newsletter fields and
(when `hasCarousel` is set) the carousel array.  The original claim —
every field defined regardless of absent response fields — is refuted by
`homeResolver_undefined_newsletterTitle`. -/
theorem homeResolver_allDefined_amended :
    ∀ (env : Env) (fetch : Request → FetchOutcome) (md : String → String),
      (∀ e, getHomeContent env fetch = .error e →
        getHomePageContent env fetch md = staticHome ∧ staticHome.allDefined = true)
      ∧ (∀ c, getHomeContent env fetch = .ok c →
          c.newsletterTitle.isSome = true →
          c.newsletterDescription.isSome = true →
          (c.hasCarousel = true → c.carousel.isSome = true) →
          (getHomePageContent env fetch md).allDefined = true) := by
  intro env fetch md
  constructor
  · intro e he
    exact ⟨getHomePageContent_of_error he, rfl⟩
  · intro c hc h1 h2 h3
    have hsafe : getHomeContentSafe env fetch = some c := by
      simp [getHomeContentSafe, hc, Except.toOption]
    obtain ⟨t, ht⟩ := Option.isSome_iff_exists.mp h1
    obtain ⟨d, hd⟩ := Option.isSome_iff_exists.mp h2
    cases hcar : c.hasCarousel with
    | false => simp [getHomePageContent, hsafe, Home.allDefined, ht, hd, hcar]
    | true =>
      obtain ⟨car, hc2⟩ := Option.isSome_iff_exists.mp (h3 hcar)
      simp [getHomePageContent, hsafe, Home.allDefined, ht, hd, hcar, hc2]

/-- C1 (counterexample): a successful CMS response in which the expected
field `newsletterTitle` is absent produces a view-model whose
`newsletter.title` is undefined — refuting "always returns a view-model
in which every field has a defined value … regardless of whether the CMS
… returned a response with some expected fields absent". -/
theorem homeResolver_undefined_newsletterTitle :
    (getHomePageContent envLive fetchOkNoNewsletterTitle id).newsletter.title = none
    ∧ (getHomePageContent envLive fetchOkNoNewsletterTitle id).allDefined = false :=
  ⟨rfl, rfl⟩

/-- Witness for `homeResolver_allDefined_amended` at a concrete
environment, oracle and fully populated response. -/
theorem homeResolver_allDefined_amended_witness :
    (getHomePageContent envLive fetchOkFull id).allDefined = true :=
  (homeResolver_allDefined_amended envLive fetchOkFull id).2 homeContentFull
    rfl rfl rfl (fun _ => rfl)

/-- C2: for every failure of the CMS fetch — missing (or empty, by JS
truthiness) base-URL configuration, network error, non-2xx HTTP status,
or JSON decode failure — `getHomePageContent` returns `staticHome`
exactly, whose `loading` flag is `true`; no error propagates (the
resolver is total). -/
theorem homeResolver_fallback_on_every_failure :
    ∀ (env : Env) (fetch : Request → FetchOutcome) (md : String → String),
      ((resolveApiUrl env = none ∨ resolveApiUrl env = some "") →
        getHomePageContent env fetch md = staticHome)
      ∧ (∀ u, resolveApiUrl env = some u →
          fetch (homeRequest u) = .networkError →
          getHomePageContent env fetch md = staticHome)
      ∧ (∀ u st body, resolveApiUrl env = some u →
          fetch (homeRequest u) = .response false st body →
          getHomePageContent env fetch md = staticHome)
      ∧ (∀ u st, resolveApiUrl env = some u →
          fetch (homeRequest u) = .response true st none →
          getHomePageContent env fetch md = staticHome)
      ∧ staticHome.loading = true := by
  intro env fetch md
  refine ⟨?_, ?_, ?_, ?_, rfl⟩
  · rintro (h | h)
    · exact getHomePageContent_of_error (e := .missingConfig)
        (by simp [getHomeContent, h])
    · exact getHomePageContent_of_error (e := .missingConfig)
        (by simp [getHomeContent, h])
  · intro u h1 h2
    by_cases hu : u = ""
    · exact getHomePageContent_of_error (e := .missingConfig)
        (by simp [getHomeContent, h1, hu])
    · exact getHomePageContent_of_error (e := .network)
        (by simp [getHomeContent, h1, hu, h2])
  · intro u st body h1 h2
    by_cases hu : u = ""
    · exact getHomePageContent_of_error (e := .missingConfig)
        (by simp [getHomeContent, h1, hu])
    · exact getHomePageContent_of_error (e := .http st)
        (by simp [getHomeContent, h1, hu, h2])
  · intro u st h1 h2
    by_cases hu : u = ""
    · exact getHomePageContent_of_error (e := .missingConfig)
        (by simp [getHomeContent, h1, hu])
    · exact getHomePageContent_of_error (e := .decode)
        (by simp [getHomeContent, h1, hu, h2])

/-- Witness for `homeResolver_fallback_on_every_failure`: concrete
environment, CMS answering HTTP 500. -/
theorem homeResolver_fallback_witness :
    getHomePageContent envLive fetchHttp500 id = staticHome
    ∧ staticHome.loading = true := by
  have h := homeResolver_fallback_on_every_failure envLive fetchHttp500 id
  exact ⟨h.2.2.1 "http://cms.example" 500 none rfl rfl, h.2.2.2.2⟩

/-- C3 (amended): for every input string, the parser output contains no
structural node whose tag lies outside the fixed vocabulary
{strong, em, code, u, ul, ol, li} plus the `span` text wrappers; an
out-of-vocabulary tag is never interpreted structurally — it passes
through as literal text when its split segment does not begin with `<`
(second conjunct), but a segment that does begin with an
out-of-vocabulary tag is dropped entirely (see
`renderer_drops_unknown_tag`). -/
theorem renderer_vocabOnly_amended :
    (∀ s : String, Node.vocabOnlyList (parseSimpleHtml s) = true)
    ∧ parseSimpleHtml "a <div> b" = [.elem "span" [.text "a <div> b"]] :=
  ⟨fun _ => vocabOnlyList_handleLists _, rfl⟩

/-- C3 (counterexample): the input `<script>alert(1)</script>` contains
a tag outside the vocabulary, yet the parser output is empty — the tag
(and the text inside it) neither becomes a structural node nor passes
through as literal text content; it is dropped, refuting "every tag
outside that vocabulary … passes through as literal text content rather
than … being dropped". -/
theorem renderer_drops_unknown_tag :
    parseSimpleHtml "<script>alert(1)</script>" = []
    ∧ Node.flatTextList (parseSimpleHtml "<script>alert(1)</script>") = "" :=
  ⟨rfl, rfl⟩

/-- C4 (counterexample): for `<strong><em>x</em></strong>` the text `x`
is wrapped by `strong` innermost and `em` outermost (inside the `span`
wrapper) — not, as claimed, by `em` innermost and `strong` outermost. -/
theorem renderer_nesting_counterexample :
    parseSimpleHtml "<strong><em>x</em></strong>"
      = [.elem "span" [.elem "em" [.elem "strong" [.text "x"]]]]
    ∧ parseSimpleHtml "<strong><em>x</em></strong>"
      ≠ [.elem "span" [.elem "strong" [.elem "em" [.text "x"]]]] := by
  refine ⟨rfl, ?_⟩
  intro h
  have hx : ([Node.elem "span" [Node.elem "em" [Node.elem "strong" [Node.text "x"]]]] : List Node)
      = [Node.elem "span" [Node.elem "strong" [Node.elem "em" [Node.text "x"]]]] :=
    Eq.trans (by rfl) h
  injection hx with h1 _
  injection h1 with _ h2
  injection h2 with h3 _
  injection h3 with h4 _
  exact absurd h4 (by decide)

/-- C4 (amended): when a text segment is emitted under several open
formatting tags, the first-opened tag is applied innermost and the
last-opened tag outermost: for any two inline vocabulary tags `a`, `b`,
the input `<a><b>x</b></a>` yields `x` wrapped by `a` innermost and `b`
outermost. -/
theorem renderer_nesting_first_opened_innermost :
    ∀ a b : String, a ∈ ["strong", "em", "code", "u"] →
      b ∈ ["strong", "em", "code", "u"] →
      parseSimpleHtml
          ("<" ++ a ++ "><" ++ b ++ ">x</" ++ b ++ "></" ++ a ++ ">")
        = [.elem "span" [.elem b [.elem a [.text "x"]]]] := by
  intro a b ha hb
  fin_cases ha <;> fin_cases hb <;> rfl

/-- Witness for `renderer_nesting_first_opened_innermost` at
`a = strong`, `b = em`. -/
theorem renderer_nesting_first_opened_innermost_witness :
    parseSimpleHtml "<strong><em>x</em></strong>"
      = [.elem "span" [.elem "em" [.elem "strong" [.text "x"]]]] :=
  renderer_nesting_first_opened_innermost "strong" "em" (by decide) (by decide)

/-- Modelled from the spec: the claimed size-resolution rule, written
out step by step and independently of `fallbackOrder` and
`firstAvailableFormat` — "size-variant selection must degrade gracefully
through an ordered preference list (large → medium → small → thumbnail →
original) when the requested variant is absent", with the requested
variant's URL when it is present and the original unsized URL when no
variant exists.  This is the comparison definition for the refinement
claim about `getBestImageUrl`. -/
def specBestImageUrl (env : Env) (img : StrapiImage) (sz : ImgSize) : String :=
  match img.formats with
  | none => getStrapiImageUrl env img.url
  | some fs =>
    match fs.get sz with
    | some fm => getStrapiImageUrl env fm.url
    | none =>
      match fs.large with
      | some fm => getStrapiImageUrl env fm.url
      | none =>
        match fs.medium with
        | some fm => getStrapiImageUrl env fm.url
        | none =>
          match fs.small with
          | some fm => getStrapiImageUrl env fm.url
          | none =>
            match fs.thumbnail with
            | some fm => getStrapiImageUrl env fm.url
            | none => getStrapiImageUrl env img.url

/-- C5: for every environment, image and requested size,
`getBestImageUrl` agrees with the spec's resolution rule
`specBestImageUrl` — the requested variant's URL when present, then
large, medium, small, thumbnail, then the original unsized URL (the
full order, forced at every step and for every combination of present
and absent variants); in particular an image with only a thumbnail
variant answers a `large` request with the thumbnail URL. -/
theorem getBestImageUrl_preference_order :
    (∀ (env : Env) (img : StrapiImage) (sz : ImgSize),
      getBestImageUrl env img sz = specBestImageUrl env img sz)
    ∧ (∀ (env : Env) (img : StrapiImage) (tf : StrapiImageFormat),
        img.formats = some
            { large := none, medium := none, small := none, thumbnail := some tf } →
        getBestImageUrl env img .large = getStrapiImageUrl env tf.url) := by
  constructor
  · intro env img sz
    obtain ⟨i, alt, cap, fmts, u⟩ := img
    cases fmts with
    | none => cases sz <;> rfl
    | some fs =>
      obtain ⟨ol, om, os, ot⟩ := fs
      cases sz <;> cases ol <;> cases om <;> cases os <;> cases ot <;> rfl
  · intro env img tf h
    simp [getBestImageUrl, h, ImageFormats.get, firstAvailableFormat, fallbackOrder]

/-- Witness for `getBestImageUrl_preference_order`: thumbnail-only image
requested at `large` yields the thumbnail URL. -/
theorem getBestImageUrl_preference_order_witness :
    getBestImageUrl envLive imgThumbOnly .large
      = getStrapiImageUrl envLive thumbFormat.url :=
  getBestImageUrl_preference_order.2 envLive imgThumbOnly thumbFormat rfl

/-- C6: the skill proficiency display mapping sends beginner to 25,
intermediate to 50, advanced to 75 and expert to 100, exactly. -/
theorem skillProgressValue_mapping :
    skillProgressValue "beginner" = 25
    ∧ skillProgressValue "intermediate" = 50
    ∧ skillProgressValue "advanced" = 75
    ∧ skillProgressValue "expert" = 100 :=
  ⟨rfl, rfl, rfl, rfl⟩

/-- C7: `<p>a <strong>b</strong> c</p>` parses to a node sequence with
flattened text `a b c` in which exactly the `b` segment is wrapped in a
`strong` node and the other segments carry no formatting. -/
theorem renderer_roundTrip_bold :
    parseSimpleHtml "<p>a <strong>b</strong> c</p>"
      = [.elem "span" [.text "a "],
         .elem "span" [.elem "strong" [.text "b"]],
         .elem "span" [.text " c"]]
    ∧ Node.flatTextList (parseSimpleHtml "<p>a <strong>b</strong> c</p>") = "a b c" :=
  ⟨rfl, rfl⟩

/-- C8: `</strong>text` parses (without raising — the parser is a total
function) to plain unformatted text, and in general a close-tag whose
tag is not on the formatting stack leaves the stack unchanged. -/
theorem renderer_close_without_open :
    parseSimpleHtml "</strong>text" = [.elem "span" [.text "text"]]
    ∧ ∀ (tag : String) (fmt : List String), tag ∉ fmt → removeFmt tag fmt = fmt := by
  refine ⟨rfl, ?_⟩
  intro tag fmt h
  simp only [removeFmt]
  apply List.filter_eq_self.mpr
  intro a ha
  have hne : a ≠ tag := fun heq => h (heq ▸ ha)
  simp [hne]

/-- Witness for `renderer_close_without_open`: closing `strong` with only
`em` open is a no-op on the stack. -/
theorem renderer_close_without_open_witness :
    removeFmt "strong" ["em"] = ["em"] :=
  renderer_close_without_open.2 "strong" ["em"] (by decide)

/-- C9: contrary to the claim (and to the repository documentation,
which requires `STRAPI_API_TOKEN` and describes invalid-token handling),
none of the three content fetchers attaches any authorization header:
every request carries exactly the `Content-Type` header. -/
theorem fetchers_send_no_auth_header :
    ∀ apiUrl : String,
      (homeRequest apiUrl).headers = [("Content-Type", "application/json")]
      ∧ (aboutRequest apiUrl).headers = [("Content-Type", "application/json")]
      ∧ (blogRequest apiUrl).headers = [("Content-Type", "application/json")]
      ∧ ((homeRequest apiUrl).headers.map Prod.fst).contains "Authorization" = false
      ∧ ((aboutRequest apiUrl).headers.map Prod.fst).contains "Authorization" = false
      ∧ ((blogRequest apiUrl).headers.map Prod.fst).contains "Authorization" = false :=
  fun _ => ⟨rfl, rfl, rfl, rfl, rfl, rfl⟩

/-- C10: the home and blog fetchers hard-code the request locale to
`en`, which differs from the application default locale `es`. -/
theorem cms_locale_hardcoded_en :
    homeLocale = "en" ∧ blogLocale = "en" ∧ defaultLocale = "es"
    ∧ homeLocale ≠ defaultLocale ∧ locales = ["es", "en"]
    ∧ (∀ u : String,
        (homeRequest u).url = u ++ "/api/home?populate=all&locale=en"
        ∧ (blogRequest u).url = u ++ "/api/posts?populate=*&locale=en") :=
  ⟨rfl, rfl, rfl, by decide, rfl, fun _ => ⟨rfl, rfl⟩⟩

end Portfolio
